import Mathlib

/-!
Verification development for the ceph-bench repository
(src/ceph-analysis.py), a pandas script that analyses per-OSD benchmark
samples.  The Python functions are shallowly embedded as Lean functions
over lists of rows; pandas floats become exact rationals, except that a
possibly-NaN float (as produced by `std` on a group of fewer than two
samples) is modelled by the type `PF` below.

Embedding conventions:
* a DataFrame is a `List Sample` in row order;
* `Series.unique()` is `uniqueList` (first-seen order, as in pandas);
* `groupby(...).agg(...)`/`groupby` key ordering: pandas emits group keys
  in sorted order (`sort=True` default), modelled by insertion sort with
  a boolean comparator (`sortLe`);
* `Series.median()` sorts the values and takes the middle element, or
  the mean of the two middle elements (`medianList`);
* Python float formatting `f"{x:.2f}"` and `Series.round(2)` both round
  half-to-even, modelled by `rhe`;
* the global pandas option state touched by `pd.set_option` is an
  explicit `DisplayOptions` value threaded through
  `calculate_basic_stats`.
-/

/-- A pandas float that may be NaN (comparisons with NaN are false,
`f"{nan:.2f}"` prints `nan`). -/
inductive PF where
  | nan : PF
  | val : ℚ → PF
deriving DecidableEq

/-- `x >= 1024` on a possibly-NaN float: false for NaN. -/
def PF.ge1024 : PF → Bool
  | PF.nan => false
  | PF.val v => decide ((1024 : ℚ) ≤ v)

/-- `x / 1024` on a possibly-NaN float. -/
def PF.div1024 : PF → PF
  | PF.nan => PF.nan
  | PF.val v => PF.val (v / 1024)

/-- Round half-to-even to the nearest integer (Python/numpy rounding). -/
def rhe (r : ℚ) : ℤ :=
  let f := ⌊r⌋
  if r - f < 1 / 2 then f
  else if 1 / 2 < r - f then f + 1
  else if f % 2 = 0 then f else f + 1

/-- Python `f"{v:.2f}"` for an exact rational value. -/
def toFixed2 (q : ℚ) : String :=
  let n := rhe (q * 100)
  let s := if n < 0 then "-" else ""
  let m := n.natAbs
  s ++ toString (m / 100) ++ "." ++ (if m % 100 < 10 then "0" else "") ++ toString (m % 100)

/-- Python `f"{v:.2f}"` on a possibly-NaN float. -/
def fmt2 : PF → String
  | PF.nan => "nan"
  | PF.val v => toFixed2 v

/-- Python `round(v, 2)` / `Series.round(2)` (half-to-even). -/
def round2 (q : ℚ) : ℚ := (rhe (q * 100) : ℚ) / 100

/-- `round(·, 2)` on a possibly-NaN float (`round(nan, 2)` is `nan`). -/
def round2PF : PF → PF
  | PF.nan => PF.nan
  | PF.val v => PF.val (round2 v)

/-- `units = ['B/s', 'KB/s', 'MB/s', 'GB/s', 'TB/s']` (ceph-analysis.py line 11). -/
def b2hrUnits : List String := ["B/s", "KB/s", "MB/s", "GB/s", "TB/s"]

/-- The `while bytes_value >= 1024 and index < len(units) - 1` loop of
`bytes_to_human_readable` (ceph-analysis.py lines 13-15).  The third
argument is the number of divisions still permitted, i.e. `4 - i`, so
that the recursion is structural; `index < len(units) - 1` is exactly
`0 < remaining`. -/
def b2hrLoop : PF → Nat → Nat → PF × Nat
  | v, i, 0 => (v, i)
  | v, i, remaining + 1 =>
    if v.ge1024 then b2hrLoop v.div1024 (i + 1) remaining else (v, i)

/-- `bytes_to_human_readable` (ceph-analysis.py lines 9-16): repeatedly
divide by 1024 and print with two decimals and a unit suffix. -/
def bytes_to_human_readable (b : PF) : String :=
  let p := b2hrLoop b 0 4
  fmt2 p.1 ++ " " ++ b2hrUnits.getD p.2 ""

/-- Worker for `uniqueList`: `seen` holds the values already emitted. -/
def uniqueAux {α : Type} [DecidableEq α] : List α → List α → List α
  | [], _ => []
  | x :: xs, seen =>
    if x ∈ seen then uniqueAux xs seen else x :: uniqueAux xs (x :: seen)

/-- pandas `Series.unique()`: distinct values in first-seen order. -/
def uniqueList {α : Type} [DecidableEq α] (l : List α) : List α :=
  uniqueAux l []

/-- Insertion into a list sorted by a boolean comparator. -/
def insertLe {α : Type} (le : α → α → Bool) (x : α) : List α → List α
  | [] => [x]
  | y :: ys => if le x y then x :: y :: ys else y :: insertLe le x ys

/-- Insertion sort by a boolean comparator (models the sorting pandas
performs on values for `median` and on group keys for `groupby`). -/
def sortLe {α : Type} (le : α → α → Bool) : List α → List α
  | [] => []
  | x :: xs => insertLe le x (sortLe le xs)

/-- pandas `Series.median()`: sort, take the middle element (odd length)
or the mean of the two middle elements (even length); NaN (here `none`)
on an empty series. -/
def medianList (l : List ℚ) : Option ℚ :=
  let s := sortLe (fun a b => decide (a ≤ b)) l
  let n := s.length
  if n = 0 then none
  else if n % 2 = 1 then some (s.getD (n / 2) 0)
  else some ((s.getD (n / 2 - 1) 0 + s.getD (n / 2) 0) / 2)


/-- One row of the benchmark CSV (the `timestamp` column is parsed but
never used by the analysis functions; it is kept for row fidelity). -/
structure Sample where
  device_class : String
  osd_id : String
  run_number : Int
  timestamp : Int
  bytes_per_sec : ℚ
  iops : ℚ
deriving DecidableEq

/-- The pandas display options mutated by `calculate_basic_stats`
(ceph-analysis.py lines 41-44); `none`/`false` means unlimited/off. -/
structure DisplayOptions where
  max_columns : Option Nat
  width : Option Nat
  expand_frame_repr : Bool
  max_rows : Option Nat
deriving DecidableEq

/-- The five aggregate statistics requested per metric column
(ceph-analysis.py lines 27-30). -/
structure StatCol (α : Type) where
  mean : α
  median : α
  std : α
  min : α
  max : α
deriving DecidableEq

/-- Apply a per-statistic post-processing function to each of the five
statistics of a column (the `for stat in [...]` loops, lines 33-38). -/
def mapStat {α β : Type} (f : α → β) (c : StatCol α) : StatCol β :=
  ⟨f c.mean, f c.median, f c.std, f c.min, f c.max⟩

/-- pandas series minimum (NaN on an empty series, which cannot occur
for a non-empty group). -/
def listMin : List ℚ → PF
  | [] => PF.nan
  | x :: xs => PF.val (xs.foldl (fun a b => if b < a then b else a) x)

/-- pandas series maximum (NaN on an empty series). -/
def listMax : List ℚ → PF
  | [] => PF.nan
  | x :: xs => PF.val (xs.foldl (fun a b => if a < b then a else b) x)

/-- Sample variance with `ddof = 1` (pandas default); only consulted for
series of length at least 2. -/
def sampleVar (l : List ℚ) : ℚ :=
  let n : ℚ := l.length
  let m := l.sum / n
  ((l.map fun x => (x - m) ^ 2).sum) / (n - 1)

/-- pandas `Series.std()`: NaN for fewer than 2 samples, else the square
root of the sample variance.  `Rat.sqrt` is the rational (floor) square
root standing in for the irrational real square root; no claim in this
development depends on the std value of a group with 2 or more
samples, only on the NaN branch. -/
def sampleStd (l : List ℚ) : PF :=
  if l.length < 2 then PF.nan else PF.val (Rat.sqrt (sampleVar l))

/-- pandas `Series.mean()` (NaN on an empty series). -/
def listMean (l : List ℚ) : PF :=
  if l.length = 0 then PF.nan else PF.val (l.sum / l.length)

/-- pandas `Series.median()` as a possibly-NaN float. -/
def listMedianPF (l : List ℚ) : PF :=
  match medianList l with
  | none => PF.nan
  | some m => PF.val m

/-- The `agg` record `['mean', 'median', 'std', 'min', 'max']` for one
numeric series (ceph-analysis.py lines 27-30). -/
def rawStats (l : List ℚ) : StatCol PF :=
  { mean := listMean l, median := listMedianPF l, std := sampleStd l,
    min := listMin l, max := listMax l }

/-- One row of the `calculate_basic_stats` result after post-processing:
the `bytes_per_sec` statistics have been formatted to human-readable
strings (line 34) and the `iops` statistics rounded to 2 decimals
(line 38). -/
structure GroupStats where
  bytes_per_sec : StatCol String
  iops : StatCol PF
deriving DecidableEq

/-- Boolean `≤` on strings via the `Ord` instance (models pandas sorting
of group keys). -/
def strLe (a b : String) : Bool := (compare a b).isLE

/-- `df[df['device_class'] == device_class]` (ceph-analysis.py line 68). -/
def classDf (df : List Sample) (dc : String) : List Sample :=
  df.filter fun s => s.device_class = dc

/-- The distinct device classes in groupby (sorted) order, as produced by
`df.groupby('device_class')`. -/
def classKeys (df : List Sample) : List String :=
  sortLe strLe (uniqueList (df.map fun s => s.device_class))

/-- `calculate_basic_stats` (ceph-analysis.py lines 24-46): grouped
mean/median/std/min/max of both metrics per device class, the
`bytes_per_sec` statistics then formatted with `bytes_to_human_readable`
and the `iops` statistics rounded to 2 decimals; finally the four global
pandas display options are set (lines 41-44), modelled by returning the
new option state alongside the result. -/
def calculate_basic_stats (df : List Sample) (_opts : DisplayOptions) :
    List (String × GroupStats) × DisplayOptions :=
  ((classKeys df).map fun dc =>
    (dc,
      { bytes_per_sec := mapStat bytes_to_human_readable
          (rawStats ((classDf df dc).map fun s => s.bytes_per_sec)),
        iops := mapStat round2PF (rawStats ((classDf df dc).map fun s => s.iops)) : GroupStats }),
   { max_columns := none, width := none, expand_frame_repr := false, max_rows := none })

/-- A row of the `calculate_aggregate_stats` result before the
human-readable formatting and rounding of lines 57-59. -/
structure RawAggRecord where
  device_class : String
  run_number : Int
  bytes_per_sec : ℚ
  iops : ℚ
deriving DecidableEq

/-- A row of the `calculate_aggregate_stats` result after formatting. -/
structure AggRecord where
  device_class : String
  run_number : Int
  bytes_per_sec : String
  iops : PF
deriving DecidableEq

/-- The `(device_class, run_number)` groupby key of a sample. -/
def aggKey (s : Sample) : String × Int := (s.device_class, s.run_number)

/-- Lexicographic boolean `≤` on groupby keys. -/
def keyLe (a b : String × Int) : Bool :=
  (compare a.1 b.1).isLT || (a.1 == b.1 && a.2 ≤ b.2)

/-- The `groupby(['device_class', 'run_number']).agg(sum)` stage of
`calculate_aggregate_stats` (ceph-analysis.py lines 51-54): one record
per distinct key present in the data, in sorted key order, holding the
column sums over that group. -/
def run_totals_raw (df : List Sample) : List RawAggRecord :=
  (sortLe keyLe (uniqueList (df.map aggKey))).map fun k =>
    { device_class := k.1, run_number := k.2,
      bytes_per_sec := ((df.filter fun s => aggKey s = k).map fun s => s.bytes_per_sec).sum,
      iops := ((df.filter fun s => aggKey s = k).map fun s => s.iops).sum }

/-- `calculate_aggregate_stats` (ceph-analysis.py lines 48-61): the raw
per-(class, run) sums with `bytes_per_sec` formatted to human-readable
form (line 57) and `iops` rounded to 2 decimals (line 59). -/
def calculate_aggregate_stats (df : List Sample) : List AggRecord :=
  (run_totals_raw df).map fun r =>
    { device_class := r.device_class, run_number := r.run_number,
      bytes_per_sec := bytes_to_human_readable (PF.val r.bytes_per_sec),
      iops := round2PF (PF.val r.iops) }

/-- `df['run_number'].unique()` over the full table (ceph-analysis.py
lines 76 and 83): the global run universe. -/
def globalRuns (df : List Sample) : List Int :=
  uniqueList (df.map fun s => s.run_number)

/-- `len(df['run_number'].unique())` (ceph-analysis.py line 76). -/
def totalRuns (df : List Sample) : Nat :=
  (globalRuns df).length

/-- `class_df.groupby('run_number')['iops'].median()[run]`
(ceph-analysis.py line 71): `none` when the class has no sample in the
run (in pandas, a lookup that would raise `KeyError`). -/
def classRunMedianIops (df : List Sample) (dc : String) (run : Int) : Option ℚ :=
  medianList (((classDf df dc).filter fun s => s.run_number = run).map fun s => s.iops)

/-- `class_df.groupby('run_number')['bytes_per_sec'].median()[run]`
(ceph-analysis.py line 72). -/
def classRunMedianBytes (df : List Sample) (dc : String) (run : Int) : Option ℚ :=
  medianList (((classDf df dc).filter fun s => s.run_number = run).map fun s => s.bytes_per_sec)

/-- `class_df['osd_id'].unique()` (ceph-analysis.py line 79). -/
def classOsds (df : List Sample) (dc : String) : List String :=
  uniqueList ((classDf df dc).map fun s => s.osd_id)

/-- `osd_data[osd_data['run_number'] == run]` (ceph-analysis.py line 84)
where `osd_data = class_df[class_df['osd_id'] == osd_id]` (line 80). -/
def runData (df : List Sample) (dc osd : String) (run : Int) : List Sample :=
  ((classDf df dc).filter fun s => s.osd_id = osd).filter fun s => s.run_number = run

/-- The body of the per-run check (ceph-analysis.py lines 84-89): false
when `run_data` is empty; otherwise the first row's `iops` or
`bytes_per_sec` is strictly below the class median for that run times
`1 - threshold/100`. -/
def runUnderperforms (df : List Sample) (thr : ℚ) (dc osd : String) (run : Int) : Bool :=
  match runData df dc osd run with
  | [] => false
  | s0 :: _ =>
    decide (s0.iops < (classRunMedianIops df dc run).getD 0 * (1 - thr / 100)) ||
    decide (s0.bytes_per_sec < (classRunMedianBytes df dc run).getD 0 * (1 - thr / 100))

/-- The `underperforming_runs` counter after the run loop
(ceph-analysis.py lines 81-89). -/
def underperformingRuns (df : List Sample) (thr : ℚ) (dc osd : String) : Nat :=
  (globalRuns df).countP (runUnderperforms df thr dc osd)

/-- The list of flagged OSDs of one device class, i.e. the keys of
`poor_performing_counts` (ceph-analysis.py lines 79-93): the OSDs whose
underperforming-run count strictly exceeds `total_runs / 2`. -/
def flaggedOsds (df : List Sample) (thr : ℚ) (dc : String) : List String :=
  (classOsds df dc).filter fun osd =>
    decide ((totalRuns df : ℚ) / 2 < (underperformingRuns df thr dc osd : ℚ))

/-- `identify_outliers` (ceph-analysis.py lines 63-98): per device class
(in first-seen order) the flagged OSDs; classes with no flagged OSD are
absent from the result (line 95). -/
def identify_outliers (df : List Sample) (thr : ℚ) : List (String × List String) :=
  (uniqueList (df.map fun s => s.device_class)).filterMap fun dc =>
    if flaggedOsds df thr dc = [] then none else some (dc, flaggedOsds df thr dc)

/-- Lookup of one device class in the outlier mapping: the flagged list,
or `[]` when the class is absent. -/
def outlierLookup (out : List (String × List String)) (dc : String) : List String :=
  ((out.find? fun p => p.1 == dc).map fun p => p.2).getD []

/-- The iops-only half of the per-run check: true when the device has a
sample in the run and its `iops` alone is strictly below the cutoff
(regardless of `bytes_per_sec`). -/
def iopsOnlyBelow (df : List Sample) (thr : ℚ) (dc osd : String) (run : Int) : Bool :=
  match runData df dc osd run with
  | [] => false
  | s0 :: _ => decide (s0.iops < (classRunMedianIops df dc run).getD 0 * (1 - thr / 100))

/-- The concrete scenario table of the spec (section 8): class hdd,
devices A and B, two runs; A has iops 100 in both runs, B has 50 and 40;
all `bytes_per_sec` equal 1000 so neither device is below the
throughput cutoff. -/
def tblC2 : List Sample :=
  [ ⟨"hdd", "A", 1, 0, 1000, 100⟩, ⟨"hdd", "B", 1, 0, 1000, 50⟩,
    ⟨"hdd", "A", 2, 0, 1000, 100⟩, ⟨"hdd", "B", 2, 0, 1000, 40⟩ ]

/-- A 4-run table for the majority-threshold boundary: in class hdd,
device B underperforms in runs 1-3 (iops 10 against peer A at 100), and
in class ssd device C underperforms in runs 1-2 only. -/
def tblC1 : List Sample :=
  [ ⟨"hdd", "A", 1, 0, 1000, 100⟩, ⟨"hdd", "B", 1, 0, 1000, 10⟩,
    ⟨"ssd", "P", 1, 0, 1000, 100⟩, ⟨"ssd", "C", 1, 0, 1000, 10⟩,
    ⟨"hdd", "A", 2, 0, 1000, 100⟩, ⟨"hdd", "B", 2, 0, 1000, 10⟩,
    ⟨"ssd", "P", 2, 0, 1000, 100⟩, ⟨"ssd", "C", 2, 0, 1000, 10⟩,
    ⟨"hdd", "A", 3, 0, 1000, 100⟩, ⟨"hdd", "B", 3, 0, 1000, 10⟩,
    ⟨"ssd", "P", 3, 0, 1000, 100⟩, ⟨"ssd", "C", 3, 0, 1000, 100⟩,
    ⟨"hdd", "A", 4, 0, 1000, 100⟩, ⟨"hdd", "B", 4, 0, 1000, 100⟩,
    ⟨"ssd", "P", 4, 0, 1000, 100⟩, ⟨"ssd", "C", 4, 0, 1000, 100⟩ ]

/-- A table where device B is below the cutoff in `iops` only (its
`bytes_per_sec` equals the class median) in both of the two runs. -/
def tblC5 : List Sample :=
  [ ⟨"hdd", "A", 1, 0, 1000, 100⟩, ⟨"hdd", "B", 1, 0, 1000, 10⟩,
    ⟨"hdd", "A", 2, 0, 1000, 100⟩, ⟨"hdd", "B", 2, 0, 1000, 10⟩ ]

/-- A table whose only device class has a single device across two runs. -/
def tblC6 : List Sample :=
  [ ⟨"hdd", "A", 1, 0, 1000, 100⟩, ⟨"hdd", "A", 2, 0, 900, 90⟩ ]

/-- A single-row table: its one group has one sample, so the sample
standard deviation is undefined. -/
def tblC9 : List Sample :=
  [ ⟨"hdd", "A", 1, 0, 1000, 100⟩ ]

/-- The aggregate-sum scenario of the spec (section 8): two ssd devices
in run 1 with `bytes_per_sec` 1000 and 2000. -/
def tblSsd : List Sample :=
  [ ⟨"ssd", "A", 1, 0, 1000, 10⟩, ⟨"ssd", "B", 1, 0, 2000, 20⟩ ]

/-- A representative pandas display-option state before
`calculate_basic_stats` runs (the pandas defaults: 20 columns, width 80,
frame folding on, 60 rows). -/
def optsDefault : DisplayOptions :=
  { max_columns := some 20, width := some 80, expand_frame_repr := true, max_rows := some 60 }

/-! ### Infrastructure lemmas about the list helpers -/

theorem mem_uniqueAux {α : Type} [DecidableEq α] (a : α) :
    ∀ (l seen : List α), a ∈ uniqueAux l seen ↔ a ∈ l ∧ a ∉ seen := by
  intro l
  induction l with
  | nil => intro seen; simp [uniqueAux]
  | cons x xs ih =>
    intro seen
    rw [uniqueAux]
    by_cases hx : x ∈ seen
    · rw [if_pos hx, ih]
      constructor
      · rintro ⟨h1, h2⟩
        exact ⟨List.mem_cons_of_mem _ h1, h2⟩
      · rintro ⟨h1, h2⟩
        rcases List.mem_cons.mp h1 with rfl | h1
        · exact absurd hx h2
        · exact ⟨h1, h2⟩
    · rw [if_neg hx]
      constructor
      · intro h
        rcases List.mem_cons.mp h with rfl | h
        · exact ⟨List.mem_cons_self _ _, hx⟩
        · rcases (ih (x :: seen)).mp h with ⟨h1, h2⟩
          exact ⟨List.mem_cons_of_mem _ h1, fun hs => h2 (List.mem_cons_of_mem _ hs)⟩
      · rintro ⟨h1, h2⟩
        rcases List.mem_cons.mp h1 with rfl | h1
        · exact List.mem_cons_self _ _
        · by_cases hax : a = x
          · exact hax ▸ List.mem_cons_self _ _
          · refine List.mem_cons_of_mem _ ((ih (x :: seen)).mpr ⟨h1, fun hs => ?_⟩)
            rcases List.mem_cons.mp hs with h | h
            · exact hax h
            · exact h2 h

theorem mem_uniqueList {α : Type} [DecidableEq α] {a : α} {l : List α} :
    a ∈ uniqueList l ↔ a ∈ l := by
  simp [uniqueList, mem_uniqueAux]

theorem nodup_uniqueAux {α : Type} [DecidableEq α] :
    ∀ (l seen : List α), (uniqueAux l seen).Nodup := by
  intro l
  induction l with
  | nil => intro seen; simp [uniqueAux]
  | cons x xs ih =>
    intro seen
    rw [uniqueAux]
    by_cases hx : x ∈ seen
    · rw [if_pos hx]; exact ih seen
    · rw [if_neg hx]
      refine List.nodup_cons.mpr ⟨fun hmem => ?_, ih (x :: seen)⟩
      exact ((mem_uniqueAux x xs (x :: seen)).mp hmem).2 (List.mem_cons_self x seen)

theorem nodup_uniqueList {α : Type} [DecidableEq α] (l : List α) :
    (uniqueList l).Nodup :=
  nodup_uniqueAux l []

theorem perm_insertLe {α : Type} (le : α → α → Bool) (x : α) :
    ∀ (l : List α), (insertLe le x l).Perm (x :: l) := by
  intro l
  induction l with
  | nil => simp [insertLe]
  | cons y ys ih =>
    by_cases h : le x y
    · simp [insertLe, h]
    · simp only [insertLe, if_neg h]
      exact (ih.cons y).trans (List.Perm.swap x y ys)

theorem perm_sortLe {α : Type} (le : α → α → Bool) :
    ∀ (l : List α), (sortLe le l).Perm l := by
  intro l
  induction l with
  | nil => simp [sortLe]
  | cons x xs ih =>
    exact (perm_insertLe le x (sortLe le xs)).trans (ih.cons x)

theorem mem_sortLe {α : Type} {le : α → α → Bool} {a : α} {l : List α} :
    a ∈ sortLe le l ↔ a ∈ l :=
  (perm_sortLe le l).mem_iff

theorem nodup_sortLe {α : Type} {le : α → α → Bool} {l : List α} (h : l.Nodup) :
    (sortLe le l).Nodup :=
  ((perm_sortLe le l).nodup_iff).mpr h

theorem medianList_isSome {l : List ℚ} (h : l ≠ []) : (medianList l).isSome := by
  have hlen : (sortLe (fun a b => decide (a ≤ b)) l).length = l.length :=
    (perm_sortLe _ l).length_eq
  have hne : ¬(sortLe (fun a b => decide (a ≤ b)) l).length = 0 := by
    rw [hlen]
    exact fun h0 => h (List.length_eq_zero.mp h0)
  unfold medianList
  simp only [if_neg hne]
  by_cases hodd : (sortLe (fun a b => decide (a ≤ b)) l).length % 2 = 1 <;> simp [hodd]

theorem medianList_singleton (v : ℚ) : medianList [v] = some v := by
  simp [medianList, sortLe, insertLe]

/-- `find?` on a keyed `filterMap` over a duplicate-free key list finds
exactly the entry produced for the sought key. -/
theorem find_keyed_filterMap {α β : Type} [DecidableEq α] [BEq α] [LawfulBEq α]
    (g : α → Option β) (a : α) :
    ∀ {l : List α}, l.Nodup →
      ((l.filterMap fun c => (g c).map fun v => (c, v)).find? fun p => p.1 == a) =
        if a ∈ l then (g a).map (fun v => (a, v)) else none := by
  intro l
  induction l with
  | nil => simp
  | cons x xs ih =>
    intro hnd
    rcases List.nodup_cons.mp hnd with ⟨hx, hxs⟩
    rw [List.filterMap_cons]
    by_cases hax : a = x
    · subst hax
      cases hg : g a with
      | none =>
        simp only [hg, Option.map_none']
        simp [ih hxs, hx]
      | some v =>
        simp [hg, List.find?_cons]
    · cases hg : g x with
      | none =>
        simp only [hg, Option.map_none']
        rw [ih hxs]
        simp [List.mem_cons, hax]
      | some v =>
        have hbeq : ((x, v).1 == a) = false := by
          simp only [beq_eq_false_iff_ne, ne_eq]
          exact fun h => hax h.symm
        simp only [hg, Option.map_some', List.find?_cons, hbeq]
        rw [ih hxs]
        simp [List.mem_cons, hax]

/-! ### Lemmas about the outlier detector -/

theorem classDf_eq_nil_of_not_mem {df : List Sample} {dc : String}
    (h : dc ∉ df.map fun s => s.device_class) : classDf df dc = [] := by
  rw [classDf, List.filter_eq_nil_iff]
  intro s hs
  simp only [decide_eq_true_eq]
  intro heq
  exact h (List.mem_map.mpr ⟨s, hs, heq⟩)

/-- The class lookup in the outlier result is exactly the flagged-OSD
list of that class (in particular `[]` when the class is absent, since a
class with no samples has no OSDs to flag). -/
theorem outlierLookup_eq_flagged (df : List Sample) (thr : ℚ) (dc : String) :
    outlierLookup (identify_outliers df thr) dc = flaggedOsds df thr dc := by
  have hkey := find_keyed_filterMap
    (fun c => if flaggedOsds df thr c = [] then none else some (flaggedOsds df thr c)) dc
    (nodup_uniqueList (df.map fun s => s.device_class))
  have hfun : (fun c => ((if flaggedOsds df thr c = [] then none
        else some (flaggedOsds df thr c)) : Option (List String)).map fun v => (c, v))
      = fun c => if flaggedOsds df thr c = [] then none else some (c, flaggedOsds df thr c) := by
    funext c
    by_cases h : flaggedOsds df thr c = [] <;> simp [h]
  rw [hfun] at hkey
  unfold outlierLookup identify_outliers
  rw [hkey]
  by_cases hmem : dc ∈ uniqueList (df.map fun s => s.device_class)
  · rw [if_pos hmem]
    by_cases hfl : flaggedOsds df thr dc = [] <;> simp [hfl]
  · rw [if_neg hmem]
    have hnil : classDf df dc = [] :=
      classDf_eq_nil_of_not_mem (fun hin => hmem (mem_uniqueList.mpr hin))
    simp [flaggedOsds, classOsds, hnil, uniqueList, uniqueAux]

theorem mem_flaggedOsds {df : List Sample} {thr : ℚ} {dc osd : String} :
    osd ∈ flaggedOsds df thr dc ↔
      osd ∈ classOsds df dc ∧
        (totalRuns df : ℚ) / 2 < (underperformingRuns df thr dc osd : ℚ) := by
  simp [flaggedOsds, List.mem_filter]

/-! ### Per-table evaluation facts used by the concrete scenarios -/

theorem medians_tblC2_iops_1 : classRunMedianIops tblC2 "hdd" 1 = some 75 := by
  norm_num [classRunMedianIops, classDf, medianList, sortLe, insertLe, tblC2]

theorem medians_tblC2_iops_2 : classRunMedianIops tblC2 "hdd" 2 = some 70 := by
  norm_num [classRunMedianIops, classDf, medianList, sortLe, insertLe, tblC2]

theorem medians_tblC2_bytes_1 : classRunMedianBytes tblC2 "hdd" 1 = some 1000 := by
  norm_num [classRunMedianBytes, classDf, medianList, sortLe, insertLe, tblC2]

theorem medians_tblC2_bytes_2 : classRunMedianBytes tblC2 "hdd" 2 = some 1000 := by
  norm_num [classRunMedianBytes, classDf, medianList, sortLe, insertLe, tblC2]

theorem runUp_tblC2_A_1 : runUnderperforms tblC2 15 "hdd" "A" 1 = false := by
  have hrd : runData tblC2 "hdd" "A" 1 = [⟨"hdd", "A", 1, 0, 1000, 100⟩] := by decide
  simp only [runUnderperforms, hrd, medians_tblC2_iops_1, medians_tblC2_bytes_1,
    Option.getD_some]
  norm_num

theorem runUp_tblC2_B_1 : runUnderperforms tblC2 15 "hdd" "B" 1 = true := by
  have hrd : runData tblC2 "hdd" "B" 1 = [⟨"hdd", "B", 1, 0, 1000, 50⟩] := by decide
  simp only [runUnderperforms, hrd, medians_tblC2_iops_1, medians_tblC2_bytes_1,
    Option.getD_some]
  norm_num

theorem runUp_tblC2_A_2 : runUnderperforms tblC2 15 "hdd" "A" 2 = false := by
  have hrd : runData tblC2 "hdd" "A" 2 = [⟨"hdd", "A", 2, 0, 1000, 100⟩] := by decide
  simp only [runUnderperforms, hrd, medians_tblC2_iops_2, medians_tblC2_bytes_2,
    Option.getD_some]
  norm_num

theorem runUp_tblC2_B_2 : runUnderperforms tblC2 15 "hdd" "B" 2 = true := by
  have hrd : runData tblC2 "hdd" "B" 2 = [⟨"hdd", "B", 2, 0, 1000, 40⟩] := by decide
  simp only [runUnderperforms, hrd, medians_tblC2_iops_2, medians_tblC2_bytes_2,
    Option.getD_some]
  norm_num

theorem counts_tblC2_B : underperformingRuns tblC2 15 "hdd" "B" = 2 := by
  have hgr : globalRuns tblC2 = [1, 2] := by decide
  rw [underperformingRuns, hgr]
  simp [List.countP_cons, List.countP_nil, runUp_tblC2_B_1, runUp_tblC2_B_2]

theorem counts_tblC2_A : underperformingRuns tblC2 15 "hdd" "A" = 0 := by
  have hgr : globalRuns tblC2 = [1, 2] := by decide
  rw [underperformingRuns, hgr]
  simp [List.countP_cons, List.countP_nil, runUp_tblC2_A_1, runUp_tblC2_A_2]

theorem medians_tblC1_iops_hdd_1 : classRunMedianIops tblC1 "hdd" 1 = some 55 := by
  norm_num [classRunMedianIops, classDf, medianList, sortLe, insertLe, tblC1]

theorem medians_tblC1_iops_hdd_2 : classRunMedianIops tblC1 "hdd" 2 = some 55 := by
  norm_num [classRunMedianIops, classDf, medianList, sortLe, insertLe, tblC1]

theorem medians_tblC1_iops_hdd_3 : classRunMedianIops tblC1 "hdd" 3 = some 55 := by
  norm_num [classRunMedianIops, classDf, medianList, sortLe, insertLe, tblC1]

theorem medians_tblC1_iops_hdd_4 : classRunMedianIops tblC1 "hdd" 4 = some 100 := by
  norm_num [classRunMedianIops, classDf, medianList, sortLe, insertLe, tblC1]

theorem medians_tblC1_iops_ssd_1 : classRunMedianIops tblC1 "ssd" 1 = some 55 := by
  norm_num [classRunMedianIops, classDf, medianList, sortLe, insertLe, tblC1]

theorem medians_tblC1_iops_ssd_2 : classRunMedianIops tblC1 "ssd" 2 = some 55 := by
  norm_num [classRunMedianIops, classDf, medianList, sortLe, insertLe, tblC1]

theorem medians_tblC1_iops_ssd_3 : classRunMedianIops tblC1 "ssd" 3 = some 100 := by
  norm_num [classRunMedianIops, classDf, medianList, sortLe, insertLe, tblC1]

theorem medians_tblC1_iops_ssd_4 : classRunMedianIops tblC1 "ssd" 4 = some 100 := by
  norm_num [classRunMedianIops, classDf, medianList, sortLe, insertLe, tblC1]

theorem medians_tblC1_bytes_hdd_1 : classRunMedianBytes tblC1 "hdd" 1 = some 1000 := by
  norm_num [classRunMedianBytes, classDf, medianList, sortLe, insertLe, tblC1]

theorem medians_tblC1_bytes_hdd_2 : classRunMedianBytes tblC1 "hdd" 2 = some 1000 := by
  norm_num [classRunMedianBytes, classDf, medianList, sortLe, insertLe, tblC1]

theorem medians_tblC1_bytes_hdd_3 : classRunMedianBytes tblC1 "hdd" 3 = some 1000 := by
  norm_num [classRunMedianBytes, classDf, medianList, sortLe, insertLe, tblC1]

theorem medians_tblC1_bytes_hdd_4 : classRunMedianBytes tblC1 "hdd" 4 = some 1000 := by
  norm_num [classRunMedianBytes, classDf, medianList, sortLe, insertLe, tblC1]

theorem medians_tblC1_bytes_ssd_1 : classRunMedianBytes tblC1 "ssd" 1 = some 1000 := by
  norm_num [classRunMedianBytes, classDf, medianList, sortLe, insertLe, tblC1]

theorem medians_tblC1_bytes_ssd_2 : classRunMedianBytes tblC1 "ssd" 2 = some 1000 := by
  norm_num [classRunMedianBytes, classDf, medianList, sortLe, insertLe, tblC1]

theorem medians_tblC1_bytes_ssd_3 : classRunMedianBytes tblC1 "ssd" 3 = some 1000 := by
  norm_num [classRunMedianBytes, classDf, medianList, sortLe, insertLe, tblC1]

theorem medians_tblC1_bytes_ssd_4 : classRunMedianBytes tblC1 "ssd" 4 = some 1000 := by
  norm_num [classRunMedianBytes, classDf, medianList, sortLe, insertLe, tblC1]

theorem runUp_tblC1_B_1 : runUnderperforms tblC1 15 "hdd" "B" 1 = true := by
  have hrd : runData tblC1 "hdd" "B" 1 = [⟨"hdd", "B", 1, 0, 1000, 10⟩] := by decide
  simp only [runUnderperforms, hrd, medians_tblC1_iops_hdd_1, medians_tblC1_bytes_hdd_1,
    Option.getD_some]
  norm_num

theorem runUp_tblC1_B_2 : runUnderperforms tblC1 15 "hdd" "B" 2 = true := by
  have hrd : runData tblC1 "hdd" "B" 2 = [⟨"hdd", "B", 2, 0, 1000, 10⟩] := by decide
  simp only [runUnderperforms, hrd, medians_tblC1_iops_hdd_2, medians_tblC1_bytes_hdd_2,
    Option.getD_some]
  norm_num

theorem runUp_tblC1_B_3 : runUnderperforms tblC1 15 "hdd" "B" 3 = true := by
  have hrd : runData tblC1 "hdd" "B" 3 = [⟨"hdd", "B", 3, 0, 1000, 10⟩] := by decide
  simp only [runUnderperforms, hrd, medians_tblC1_iops_hdd_3, medians_tblC1_bytes_hdd_3,
    Option.getD_some]
  norm_num

theorem runUp_tblC1_B_4 : runUnderperforms tblC1 15 "hdd" "B" 4 = false := by
  have hrd : runData tblC1 "hdd" "B" 4 = [⟨"hdd", "B", 4, 0, 1000, 100⟩] := by decide
  simp only [runUnderperforms, hrd, medians_tblC1_iops_hdd_4, medians_tblC1_bytes_hdd_4,
    Option.getD_some]
  norm_num

theorem runUp_tblC1_C_1 : runUnderperforms tblC1 15 "ssd" "C" 1 = true := by
  have hrd : runData tblC1 "ssd" "C" 1 = [⟨"ssd", "C", 1, 0, 1000, 10⟩] := by decide
  simp only [runUnderperforms, hrd, medians_tblC1_iops_ssd_1, medians_tblC1_bytes_ssd_1,
    Option.getD_some]
  norm_num

theorem runUp_tblC1_C_2 : runUnderperforms tblC1 15 "ssd" "C" 2 = true := by
  have hrd : runData tblC1 "ssd" "C" 2 = [⟨"ssd", "C", 2, 0, 1000, 10⟩] := by decide
  simp only [runUnderperforms, hrd, medians_tblC1_iops_ssd_2, medians_tblC1_bytes_ssd_2,
    Option.getD_some]
  norm_num

theorem runUp_tblC1_C_3 : runUnderperforms tblC1 15 "ssd" "C" 3 = false := by
  have hrd : runData tblC1 "ssd" "C" 3 = [⟨"ssd", "C", 3, 0, 1000, 100⟩] := by decide
  simp only [runUnderperforms, hrd, medians_tblC1_iops_ssd_3, medians_tblC1_bytes_ssd_3,
    Option.getD_some]
  norm_num

theorem runUp_tblC1_C_4 : runUnderperforms tblC1 15 "ssd" "C" 4 = false := by
  have hrd : runData tblC1 "ssd" "C" 4 = [⟨"ssd", "C", 4, 0, 1000, 100⟩] := by decide
  simp only [runUnderperforms, hrd, medians_tblC1_iops_ssd_4, medians_tblC1_bytes_ssd_4,
    Option.getD_some]
  norm_num

theorem counts_tblC1_B : underperformingRuns tblC1 15 "hdd" "B" = 3 := by
  have hgr : globalRuns tblC1 = [1, 2, 3, 4] := by decide
  rw [underperformingRuns, hgr]
  simp [List.countP_cons, List.countP_nil, runUp_tblC1_B_1, runUp_tblC1_B_2, runUp_tblC1_B_3,
    runUp_tblC1_B_4]

theorem counts_tblC1_C : underperformingRuns tblC1 15 "ssd" "C" = 2 := by
  have hgr : globalRuns tblC1 = [1, 2, 3, 4] := by decide
  rw [underperformingRuns, hgr]
  simp [List.countP_cons, List.countP_nil, runUp_tblC1_C_1, runUp_tblC1_C_2, runUp_tblC1_C_3,
    runUp_tblC1_C_4]

/-! ### Claim theorems -/

/-- C1: for every table and threshold, the outlier detector flags a
device if and only if it is a device of the class and its count of
underperforming runs strictly exceeds half of the global number of
distinct `run_number` values of the full table; in particular with 4
global runs a device with exactly 2 underperforming runs is not flagged
and one with 3 (that is a device of the class) is flagged. -/
theorem outlier_flag_iff_strict_global_majority (df : List Sample) (thr : ℚ) (dc osd : String) :
    (osd ∈ outlierLookup (identify_outliers df thr) dc ↔
      osd ∈ classOsds df dc ∧
        (totalRuns df : ℚ) / 2 < (underperformingRuns df thr dc osd : ℚ))
    ∧ (totalRuns df = 4 →
        (underperformingRuns df thr dc osd = 2 →
            osd ∉ outlierLookup (identify_outliers df thr) dc)
        ∧ (underperformingRuns df thr dc osd = 3 → osd ∈ classOsds df dc →
            osd ∈ outlierLookup (identify_outliers df thr) dc)) := by
  have hmain : osd ∈ outlierLookup (identify_outliers df thr) dc ↔
      osd ∈ classOsds df dc ∧
        (totalRuns df : ℚ) / 2 < (underperformingRuns df thr dc osd : ℚ) := by
    rw [outlierLookup_eq_flagged]
    exact mem_flaggedOsds
  refine ⟨hmain, fun h4 => ⟨fun h2 hmem => ?_, fun h3 hosd => ?_⟩⟩
  · rcases hmain.mp hmem with ⟨-, hlt⟩
    rw [h4, h2] at hlt
    norm_num at hlt
  · refine hmain.mpr ⟨hosd, ?_⟩
    rw [h4, h3]
    norm_num

/-- Witness for C1 at the concrete 4-run table `tblC1`: device B with 3
underperforming runs is flagged, device C with exactly 2 is not. -/
theorem outlier_flag_iff_strict_global_majority_witness :
    "B" ∈ outlierLookup (identify_outliers tblC1 15) "hdd"
    ∧ "C" ∉ outlierLookup (identify_outliers tblC1 15) "ssd" := by
  constructor
  · exact ((outlier_flag_iff_strict_global_majority tblC1 15 "hdd" "B").2 (by decide)).2
      counts_tblC1_B (by decide)
  · exact ((outlier_flag_iff_strict_global_majority tblC1 15 "ssd" "C").2 (by decide)).1
      counts_tblC1_C

/-- C2: on the concrete table of the spec scenario (class hdd, devices
A and B, two runs, A at iops 100 in both runs, B at 50 and 40, all
throughputs equal) the detector with threshold 15 returns exactly
hdd ↦ [B]: the per-run iops medians are 75 and 70, B is below the
cutoff in both of the 2 runs and A in none. -/
theorem outlier_concrete_scenario_hdd_B :
    classRunMedianIops tblC2 "hdd" 1 = some 75
    ∧ classRunMedianIops tblC2 "hdd" 2 = some 70
    ∧ underperformingRuns tblC2 15 "hdd" "B" = 2
    ∧ underperformingRuns tblC2 15 "hdd" "A" = 0
    ∧ totalRuns tblC2 = 2
    ∧ identify_outliers tblC2 15 = [("hdd", ["B"])] := by
  refine ⟨medians_tblC2_iops_1, medians_tblC2_iops_2, counts_tblC2_B, counts_tblC2_A,
    by decide, ?_⟩
  have hcl : uniqueList (tblC2.map fun s => s.device_class) = ["hdd"] := by decide
  have hosds : classOsds tblC2 "hdd" = ["A", "B"] := by decide
  have htr : totalRuns tblC2 = 2 := by decide
  have hfl : flaggedOsds tblC2 15 "hdd" = ["B"] := by
    simp only [flaggedOsds, hosds, htr, List.filter_cons, List.filter_nil,
      counts_tblC2_A, counts_tblC2_B]
    norm_num
  simp only [identify_outliers, hcl, List.filterMap_cons, List.filterMap_nil, hfl]
  norm_num

/-- C4 counterexample: on a table with zero rows `identify_outliers`
returns the empty mapping normally; no EmptyDataset error is raised. -/
theorem empty_table_returns_empty_map_cex : identify_outliers [] 15 = [] := rfl

/-- C4 amended: for every threshold, the outlier detector on a zero-row
table returns the empty mapping (it does not fail). -/
theorem empty_table_returns_empty_map (thr : ℚ) : identify_outliers [] thr = [] := rfl

/-- C7 counterexample: `calculate_basic_stats` does not leave the global
pandas display-option state unchanged. -/
theorem grouped_stats_mutates_display_options_cex :
    (calculate_basic_stats tblC9 optsDefault).2 ≠ optsDefault := by decide

/-- C7 amended: the statistics result of `calculate_basic_stats` depends
only on the table (not on the prior option state) and the table itself
is never mutated, but the function always leaves the four global pandas
display options set to unlimited/off; `calculate_aggregate_stats`
touches no state at all (it is a pure function of the table in the
embedding). -/
theorem aggregator_purity_and_option_effect (df : List Sample) (o1 o2 : DisplayOptions) :
    (calculate_basic_stats df o1).1 = (calculate_basic_stats df o2).1
    ∧ (calculate_basic_stats df o1).2 =
        { max_columns := none, width := none, expand_frame_repr := false, max_rows := none } :=
  ⟨rfl, rfl⟩

theorem iopsOnlyBelow_imp_runUnderperforms (df : List Sample) (thr : ℚ) (dc osd : String)
    (run : Int) (h : iopsOnlyBelow df thr dc osd run = true) :
    runUnderperforms df thr dc osd run = true := by
  unfold iopsOnlyBelow at h
  unfold runUnderperforms
  cases hrd : runData df dc osd run with
  | nil => simp [hrd] at h
  | cons s0 rest =>
    simp only [hrd] at h ⊢
    simp [h]

/-- C5: a device counts as underperforming in a run exactly when its
iops is strictly below the iops cutoff OR its throughput is strictly
below the throughput cutoff (either alone suffices); consequently a
device whose iops alone is below the cutoff in a strict majority of the
global runs is flagged. -/
theorem outlier_or_semantics (df : List Sample) (thr : ℚ) (dc osd : String) :
    (∀ (run : Int) (s0 : Sample) (rest : List Sample), runData df dc osd run = s0 :: rest →
      (runUnderperforms df thr dc osd run = true ↔
        (s0.iops < (classRunMedianIops df dc run).getD 0 * (1 - thr / 100) ∨
         s0.bytes_per_sec < (classRunMedianBytes df dc run).getD 0 * (1 - thr / 100))))
    ∧ (osd ∈ classOsds df dc →
        (totalRuns df : ℚ) / 2 < (((globalRuns df).countP (iopsOnlyBelow df thr dc osd) : ℕ) : ℚ) →
        osd ∈ outlierLookup (identify_outliers df thr) dc) := by
  constructor
  · intro run s0 rest hrd
    unfold runUnderperforms
    simp only [hrd, Bool.or_eq_true, decide_eq_true_eq]
  · intro hosd hlt
    rw [outlierLookup_eq_flagged]
    refine mem_flaggedOsds.mpr ⟨hosd, lt_of_lt_of_le hlt ?_⟩
    have hmono : (globalRuns df).countP (iopsOnlyBelow df thr dc osd)
        ≤ (globalRuns df).countP (runUnderperforms df thr dc osd) :=
      List.countP_mono_left fun run _ h => iopsOnlyBelow_imp_runUnderperforms df thr dc osd run h
    unfold underperformingRuns
    exact_mod_cast hmono

/-- Witness for C5 at `tblC5`: device B is below the cutoff only in
iops (throughput equals the class median) in both of the 2 runs, and is
flagged. -/
theorem outlier_or_semantics_witness :
    "B" ∈ outlierLookup (identify_outliers tblC5 15) "hdd" := by
  have hm1 : classRunMedianIops tblC5 "hdd" 1 = some 55 := by
    norm_num [classRunMedianIops, classDf, medianList, sortLe, insertLe, tblC5]
  have hm2 : classRunMedianIops tblC5 "hdd" 2 = some 55 := by
    norm_num [classRunMedianIops, classDf, medianList, sortLe, insertLe, tblC5]
  have h1 : iopsOnlyBelow tblC5 15 "hdd" "B" 1 = true := by
    have hrd : runData tblC5 "hdd" "B" 1 = [⟨"hdd", "B", 1, 0, 1000, 10⟩] := by decide
    simp only [iopsOnlyBelow, hrd, hm1, Option.getD_some]
    norm_num
  have h2 : iopsOnlyBelow tblC5 15 "hdd" "B" 2 = true := by
    have hrd : runData tblC5 "hdd" "B" 2 = [⟨"hdd", "B", 2, 0, 1000, 10⟩] := by decide
    simp only [iopsOnlyBelow, hrd, hm2, Option.getD_some]
    norm_num
  refine (outlier_or_semantics tblC5 15 "hdd" "B").2 (by decide) ?_
  have hgr : globalRuns tblC5 = [1, 2] := by decide
  have htr : totalRuns tblC5 = 2 := by decide
  rw [hgr, htr]
  have hc : List.countP (iopsOnlyBelow tblC5 15 "hdd" "B") [1, 2] = 2 := by
    simp [List.countP_cons, List.countP_nil, h1, h2]
  rw [hc]
  norm_num

theorem classDf_subset_df {df : List Sample} {dc : String} {s : Sample}
    (h : s ∈ classDf df dc) : s ∈ df := (List.mem_filter.mp h).1

/-- C10: whenever the detector takes the non-empty `run_data` branch
for some device of a class, the class has a sample in that run, so both
per-run class median lookups succeed (the pandas Series lookups cannot
raise `KeyError`). -/
theorem detector_median_lookup_total (df : List Sample) (dc osd : String) (run : Int)
    (h : runData df dc osd run ≠ []) :
    (classRunMedianIops df dc run).isSome ∧ (classRunMedianBytes df dc run).isSome := by
  obtain ⟨s0, hs0⟩ := List.exists_mem_of_ne_nil _ h
  have hs0sp := List.mem_filter.mp hs0
  have hs0c : s0 ∈ classDf df dc := (List.mem_filter.mp hs0sp.1).1
  have hmem : s0 ∈ (classDf df dc).filter fun s => s.run_number = run :=
    List.mem_filter.mpr ⟨hs0c, hs0sp.2⟩
  have hne : ((classDf df dc).filter fun s => s.run_number = run) ≠ [] :=
    List.ne_nil_of_mem hmem
  constructor
  · unfold classRunMedianIops
    exact medianList_isSome fun hmap => hne (List.map_eq_nil_iff.mp hmap)
  · unfold classRunMedianBytes
    exact medianList_isSome fun hmap => hne (List.map_eq_nil_iff.mp hmap)

/-- Witness for C10: on the concrete scenario table, device B has a
sample in run 1 and both median lookups are defined. -/
theorem detector_median_lookup_total_witness :
    (classRunMedianIops tblC2 "hdd" 1).isSome ∧ (classRunMedianBytes tblC2 "hdd" 1).isSome :=
  detector_median_lookup_total tblC2 "hdd" "B" 1 (by decide)

/-- C6: for every table satisfying the data-model invariants (values
non-negative and each `osd_id` appearing at most once per run within the
class) and every non-negative threshold, a device class with exactly one
distinct `osd_id` has no flagged device: the single device's value is
the per-run class median in every run it participates in, the strict `<`
comparison against `median * (1 - threshold/100)` never holds, and the
class is absent from the outlier result. -/
theorem single_device_class_never_flagged (df : List Sample) (thr : ℚ) (dc : String)
    (hthr : 0 ≤ thr)
    (hnn : ∀ s ∈ df, 0 ≤ s.iops ∧ 0 ≤ s.bytes_per_sec)
    (honce : (classDf df dc).Pairwise fun a b =>
      a.osd_id = b.osd_id → a.run_number ≠ b.run_number)
    (hsingle : (classOsds df dc).length = 1) :
    outlierLookup (identify_outliers df thr) dc = [] := by
  obtain ⟨osd0, hosd0⟩ : ∃ o, classOsds df dc = [o] := by
    match hc : classOsds df dc with
    | [o] => exact ⟨o, rfl⟩
    | [] => rw [hc] at hsingle; simp at hsingle
    | a :: b :: t => rw [hc] at hsingle; simp at hsingle
  have hall : ∀ s ∈ classDf df dc, s.osd_id = osd0 := by
    intro s hs
    have hmem : s.osd_id ∈ classOsds df dc :=
      mem_uniqueList.mpr (List.mem_map.mpr ⟨s, hs, rfl⟩)
    rw [hosd0] at hmem
    simpa using hmem
  have hcount : underperformingRuns df thr dc osd0 = 0 := by
    unfold underperformingRuns
    rw [List.countP_eq_zero]
    intro run _
    unfold runUnderperforms
    cases hrd : runData df dc osd0 run with
    | nil => simp
    | cons s0 rest =>
      have hs0rd : s0 ∈ runData df dc osd0 run := by
        rw [hrd]; exact List.mem_cons_self _ _
      have hs0sp := List.mem_filter.mp hs0rd
      have hs0c : s0 ∈ classDf df dc := (List.mem_filter.mp hs0sp.1).1
      have hclassrun : ((classDf df dc).filter fun s => s.run_number = run) = [s0] := by
        have hs0L : s0 ∈ (classDf df dc).filter fun s => s.run_number = run :=
          List.mem_filter.mpr ⟨hs0c, hs0sp.2⟩
        have hpw := honce.filter (fun s => decide (s.run_number = run))
        match hL : (classDf df dc).filter fun s => s.run_number = run with
        | [] => rw [hL] at hs0L; simp at hs0L
        | [a] =>
          rw [hL] at hs0L
          simp only [List.mem_singleton] at hs0L
          rw [hs0L]
          exact hL
        | a :: b :: t =>
          rw [hL] at hpw
          rcases List.pairwise_cons.mp hpw with ⟨hrel, -⟩
          have hab := hrel b (List.mem_cons_self _ _)
          have ha : a ∈ (classDf df dc).filter fun s => s.run_number = run := by
            rw [hL]; simp
          have hb : b ∈ (classDf df dc).filter fun s => s.run_number = run := by
            rw [hL]; simp
          have haosd := hall a (List.mem_filter.mp ha).1
          have hbosd := hall b (List.mem_filter.mp hb).1
          have harun : a.run_number = run := by
            have := (List.mem_filter.mp ha).2; simpa using this
          have hbrun : b.run_number = run := by
            have := (List.mem_filter.mp hb).2; simpa using this
          exact absurd (harun.trans hbrun.symm) (hab (haosd.trans hbosd.symm))
      have hmi : classRunMedianIops df dc run = some s0.iops := by
        unfold classRunMedianIops
        rw [hclassrun]
        simpa using medianList_singleton s0.iops
      have hmb : classRunMedianBytes df dc run = some s0.bytes_per_sec := by
        unfold classRunMedianBytes
        rw [hclassrun]
        simpa using medianList_singleton s0.bytes_per_sec
      rcases hnn s0 (classDf_subset_df hs0c) with ⟨hi, hbps⟩
      have hfac : 1 - thr / 100 ≤ 1 := by linarith
      simp only [hmi, hmb, Option.getD_some, Bool.or_eq_true, decide_eq_true_eq]
      rintro (hlt | hlt)
      · exact absurd hlt (not_lt.mpr (mul_le_of_le_one_right hi hfac))
      · exact absurd hlt (not_lt.mpr (mul_le_of_le_one_right hbps hfac))
  rw [outlierLookup_eq_flagged]
  unfold flaggedOsds
  rw [hosd0]
  have hpred : decide ((totalRuns df : ℚ) / 2
      < ((underperformingRuns df thr dc osd0 : ℕ) : ℚ)) = false := by
    rw [hcount]
    simp only [Nat.cast_zero, decide_eq_false_iff_not, not_lt]
    positivity
  simp [List.filter_cons, hpred]

/-- Witness for C6 at `tblC6`: a table whose only class hdd contains the
single device A across two runs; the class is absent from the result. -/
theorem single_device_class_never_flagged_witness :
    outlierLookup (identify_outliers tblC6 15) "hdd" = [] :=
  single_device_class_never_flagged tblC6 15 "hdd" (by norm_num) (by decide) (by decide)
    (by decide)

theorem find_keyed_map {α β : Type} [DecidableEq α] [BEq α] [LawfulBEq α]
    (f : α → β) (a : α) {l : List α} (hl : l.Nodup) :
    ((l.map fun c => (c, f c)).find? fun p => p.1 == a) =
      if a ∈ l then some (a, f a) else none := by
  have h := find_keyed_filterMap (fun c => some (f c)) a hl
  have hmap : (l.filterMap fun c => (some (f c)).map fun v => (c, v)) =
      l.map fun c => (c, f c) := by
    have := List.filterMap_eq_map (fun c : α => (c, f c))
    exact congrFun this l
  rw [hmap] at h
  simpa using h

/-- The statistics row that `calculate_basic_stats` produces for a class
present in the table: the raw five statistics of both metrics, with the
`bytes_per_sec` column passed through `bytes_to_human_readable` and the
`iops` column through `round(·, 2)`. -/
theorem calculate_basic_stats_find (df : List Sample) (opts : DisplayOptions) (dc : String)
    (hmem : dc ∈ df.map fun s => s.device_class) :
    ((calculate_basic_stats df opts).1.find? fun p => p.1 == dc) =
      some (dc,
        { bytes_per_sec := mapStat bytes_to_human_readable
            (rawStats ((classDf df dc).map fun s => s.bytes_per_sec)),
          iops := mapStat round2PF (rawStats ((classDf df dc).map fun s => s.iops)) }) := by
  have hnd : (classKeys df).Nodup := nodup_sortLe (nodup_uniqueList _)
  have hmem2 : dc ∈ classKeys df := by
    unfold classKeys
    exact mem_sortLe.mpr (mem_uniqueList.mpr hmem)
  unfold calculate_basic_stats
  rw [find_keyed_map _ dc hnd, if_pos hmem2]

/-- C3 counterexample: on a concrete one-row table the `bytes_per_sec`
mean emitted by `calculate_basic_stats` is the human-readable formatted
string "1000.00 B/s", not a numeric value — the core applies the unit
formatting itself. -/
theorem grouped_stats_bytes_not_numeric_cex :
    (((calculate_basic_stats tblC9 optsDefault).1.find? fun p => p.1 == "hdd").map
        fun p => p.2.bytes_per_sec.mean) =
      some (bytes_to_human_readable (PF.val 1000))
    ∧ bytes_to_human_readable (PF.val 1000) = "1000.00 B/s" := by
  constructor
  · rw [calculate_basic_stats_find tblC9 optsDefault "hdd" (by decide)]
    simp only [Option.map_some']
    have h : listMean ((classDf tblC9 "hdd").map fun s => s.bytes_per_sec) = PF.val 1000 := by
      norm_num [listMean, classDf, tblC9]
    simp only [mapStat, rawStats, h]
  · norm_num [bytes_to_human_readable, b2hrLoop, PF.ge1024, PF.div1024, fmt2, toFixed2,
      rhe, b2hrUnits]
    rfl

/-- C3 amended: `calculate_basic_stats` maps each device class present
in the table to the {mean, median, std, min, max} record of both
metrics, but the core itself formats the `bytes_per_sec` statistics
with `bytes_to_human_readable` (strings, not numbers) and rounds the
`iops` statistics to 2 decimals. -/
theorem grouped_stats_per_class_formatted (df : List Sample) (opts : DisplayOptions)
    (dc : String) (hmem : dc ∈ df.map fun s => s.device_class) :
    ((calculate_basic_stats df opts).1.find? fun p => p.1 == dc) =
      some (dc,
        { bytes_per_sec := mapStat bytes_to_human_readable
            (rawStats ((classDf df dc).map fun s => s.bytes_per_sec)),
          iops := mapStat round2PF (rawStats ((classDf df dc).map fun s => s.iops)) }) :=
  calculate_basic_stats_find df opts dc hmem

/-- Witness for the amended C3 at the one-row table `tblC9`. -/
theorem grouped_stats_per_class_formatted_witness :
    ((calculate_basic_stats tblC9 optsDefault).1.find? fun p => p.1 == "hdd") =
      some ("hdd",
        { bytes_per_sec := mapStat bytes_to_human_readable
            (rawStats ((classDf tblC9 "hdd").map fun s => s.bytes_per_sec)),
          iops := mapStat round2PF (rawStats ((classDf tblC9 "hdd").map fun s => s.iops)) }) :=
  grouped_stats_per_class_formatted tblC9 optsDefault "hdd" (by decide)

/-- C9: for every table containing a class group with fewer than 2
samples, `calculate_basic_stats` completes (no error) and represents the
sample standard deviation of that group as NaN for both metrics, also
after the per-statistic post-processing: the rounded `iops` std is still
NaN and the formatted `bytes_per_sec` std is the NaN rendering
"nan B/s". -/
theorem grouped_stats_small_group_std_nan (df : List Sample) (opts : DisplayOptions)
    (dc : String) (hmem : dc ∈ df.map fun s => s.device_class)
    (hsmall : (classDf df dc).length < 2) :
    ∃ r : GroupStats,
      ((calculate_basic_stats df opts).1.find? fun p => p.1 == dc) = some (dc, r)
      ∧ r.iops.std = PF.nan ∧ r.bytes_per_sec.std = "nan B/s" := by
  refine ⟨_, calculate_basic_stats_find df opts dc hmem, ?_, ?_⟩
  · have hlen : ((classDf df dc).map fun s => s.iops).length < 2 := by
      simpa using hsmall
    simp only [mapStat, rawStats, sampleStd, if_pos hlen, round2PF]
  · have hlen : ((classDf df dc).map fun s => s.bytes_per_sec).length < 2 := by
      simpa using hsmall
    simp only [mapStat, rawStats, sampleStd, if_pos hlen]
    rfl

/-- Witness for C9 at the one-row table `tblC9`. -/
theorem grouped_stats_small_group_std_nan_witness :
    ∃ r : GroupStats,
      ((calculate_basic_stats tblC9 optsDefault).1.find? fun p => p.1 == "hdd")
        = some ("hdd", r)
      ∧ r.iops.std = PF.nan ∧ r.bytes_per_sec.std = "nan B/s" :=
  grouped_stats_small_group_std_nan tblC9 optsDefault "hdd" (by decide) (by decide)

theorem countP_keyed_nodup (dc : String) (run : Int) :
    ∀ l : List (String × Int), l.Nodup →
      (l.countP fun k => k.1 == dc && k.2 == run) = if (dc, run) ∈ l then 1 else 0 := by
  intro l
  induction l with
  | nil => simp
  | cons a t ih =>
    intro hnd
    rcases List.nodup_cons.mp hnd with ⟨ha, ht⟩
    rw [List.countP_cons, ih ht]
    rcases a with ⟨a1, a2⟩
    by_cases hk : (a1, a2) = (dc, run)
    · rw [hk] at ha ⊢
      rw [if_neg ha, if_pos (List.mem_cons_self _ _)]
      simp
    · have hpa : ¬(((a1, a2).1 == dc && (a1, a2).2 == run) = true) := by
        simp only [Bool.and_eq_true, beq_iff_eq]
        rintro ⟨h1, h2⟩
        exact hk (by rw [h1, h2])
      rw [if_neg hpa]
      have hmem : ((dc, run) ∈ (a1, a2) :: t) ↔ ((dc, run) ∈ t) := by
        simp only [List.mem_cons, or_iff_right_iff_imp]
        intro h
        exact absurd h.symm hk
      by_cases hm : (dc, run) ∈ t
      · rw [if_pos hm, if_pos (hmem.mpr hm)]
      · rw [if_neg hm, if_neg (fun h => hm (hmem.mp h))]

/-- C8: `run_totals` (the groupby-sum stage of
`calculate_aggregate_stats`) produces exactly one output record per
distinct (device_class, run_number) pair that has at least one sample —
none for absent pairs — containing the column sums over that group;
`calculate_aggregate_stats` is that table with the bytes sum formatted
and the iops sum rounded per record; on the spec scenario (two ssd
devices in run 1 with 1000 and 2000 bytes/s) the pre-formatting sum is
3000. -/
theorem run_totals_per_pair :
    (∀ (df : List Sample) (dc : String) (run : Int),
      ((run_totals_raw df).countP fun r => r.device_class == dc && r.run_number == run) =
        if (dc, run) ∈ df.map aggKey then 1 else 0)
    ∧ (∀ df : List Sample, ∀ r ∈ run_totals_raw df,
        r.bytes_per_sec = ((df.filter fun s => aggKey s = (r.device_class, r.run_number)).map
            fun s => s.bytes_per_sec).sum
        ∧ r.iops = ((df.filter fun s => aggKey s = (r.device_class, r.run_number)).map
            fun s => s.iops).sum)
    ∧ (∀ df : List Sample, calculate_aggregate_stats df = (run_totals_raw df).map fun r =>
        ⟨r.device_class, r.run_number, bytes_to_human_readable (PF.val r.bytes_per_sec),
          round2PF (PF.val r.iops)⟩)
    ∧ run_totals_raw tblSsd = [⟨"ssd", 1, 3000, 30⟩] := by
  refine ⟨?_, ?_, fun df => rfl, ?_⟩
  · intro df dc run
    unfold run_totals_raw
    rw [List.countP_map]
    have hnd : (sortLe keyLe (uniqueList (df.map aggKey))).Nodup :=
      nodup_sortLe (nodup_uniqueList _)
    rw [show ((fun r : RawAggRecord => r.device_class == dc && r.run_number == run) ∘
        fun k : String × Int =>
          ({ device_class := k.1, run_number := k.2,
             bytes_per_sec := ((df.filter fun s => aggKey s = k).map
               fun s => s.bytes_per_sec).sum,
             iops := ((df.filter fun s => aggKey s = k).map fun s => s.iops).sum } :
            RawAggRecord)) =
      fun k : String × Int => k.1 == dc && k.2 == run from rfl]
    rw [countP_keyed_nodup dc run _ hnd]
    by_cases hm : (dc, run) ∈ df.map aggKey
    · rw [if_pos (mem_sortLe.mpr (mem_uniqueList.mpr hm)), if_pos hm]
    · rw [if_neg fun h => hm (mem_uniqueList.mp (mem_sortLe.mp h)), if_neg hm]
  · intro df r hr
    unfold run_totals_raw at hr
    rcases List.mem_map.mp hr with ⟨k, _, rfl⟩
    exact ⟨rfl, rfl⟩
  · have hkeys : sortLe keyLe (uniqueList (tblSsd.map aggKey)) = [("ssd", 1)] := by decide
    unfold run_totals_raw
    rw [hkeys]
    simp only [List.map_cons, List.map_nil, List.cons.injEq, and_true]
    norm_num [tblSsd, aggKey, RawAggRecord.mk.injEq]

/-- Witness for C8 at `tblSsd`: the ssd/run-1 record of the raw
aggregation table carries the sum 3000 of the two devices' 1000 and
2000 bytes/s. -/
theorem run_totals_per_pair_witness :
    (⟨"ssd", 1, 3000, 30⟩ : RawAggRecord).bytes_per_sec =
      ((tblSsd.filter fun s => aggKey s = (("ssd" : String), (1 : Int))).map
        fun s => s.bytes_per_sec).sum := by
  have hmem : (⟨"ssd", 1, 3000, 30⟩ : RawAggRecord) ∈ run_totals_raw tblSsd := by
    rw [run_totals_per_pair.2.2.2]
    exact List.mem_singleton.mpr rfl
  simpa using (run_totals_per_pair.2.1 tblSsd _ hmem).1
